import Mathlib

/-!
Verification development for the hotel-booking dashboard
(`hotel_dashbord.py`): a shallow embedding of its data model and of the
filter / aggregate pipeline shared by the eleven panels, together with
theorems settling the specification claims.
-/

namespace HotelDashboard

/-- One booking record: a row of the loaded table, with the columns the
dashboard reads.  `country`, `market_segment` and `distribution_channel`
are optional because a CSV cell may be missing (pandas NaN). -/
structure Row where
  hotel : String
  is_canceled : Bool
  arrival_date_year : Int
  arrival_date_month : String
  arrival_date_day_of_month : Int
  country : Option String
  market_segment : Option String
  distribution_channel : Option String
  lead_time : Int
  adr : ℚ
  stays_in_week_nights : Int
  stays_in_weekend_nights : Int
  adults : Int
  children : Int
  babies : Int
  deriving DecidableEq

abbrev Table := List Row

/-- `month_order` from the source: the fixed canonical January-to-December
ordering. -/
def month_order : List String :=
  ["January", "February", "March", "April", "May", "June",
   "July", "August", "September", "October", "November", "December"]

/-- `Series.unique`: the distinct values of a column, in order of first
appearance.  The `seen` accumulator holds the values already emitted. -/
def uniqueAux {α : Type*} [DecidableEq α] : List α → List α → List α
  | [], _ => []
  | x :: xs, seen =>
      if x ∈ seen then uniqueAux xs seen else x :: uniqueAux xs (x :: seen)

/-- `df[col].unique()`: distinct values in order of first appearance. -/
def unique {α : Type*} [DecidableEq α] (xs : List α) : List α := uniqueAux xs []

/-- Line 29 of the source:
`df[df.hotel.isin(hotel_type) & df.arrival_date_month.isin(month)]` --
the filtered view keeps the rows whose hotel is in the hotel selection and
whose arrival month is in the month selection. -/
def df_filtered (df : Table) (hotel_type month : List String) : Table :=
  df.filter (fun r => hotel_type.contains r.hotel && month.contains r.arrival_date_month)

/-- Line 26: the hotel multiselect defaults to `df.hotel.unique()`. -/
def hotel_default (df : Table) : List String := unique (df.map Row.hotel)

/-- Line 27: the month multiselect defaults to `month_order` -- the fixed
canonical list, independent of the table contents. -/
def month_default (_df : Table) : List String := month_order

/-- Line 27: the month multiselect offers `df.arrival_date_month.unique()`
as its options. -/
def month_options (df : Table) : List String := unique (df.map Row.arrival_date_month)

/-- A parsed calendar date (the value of one cell of the derived
`arrival_date` column). -/
structure ParsedDate where
  year : Int
  month : Nat
  day : Int
  deriving DecidableEq

/-- Resolution of an English month name to its number, as the date parser
does when it reads the `arrival_date_month` column. -/
def monthNumber : String → Option Nat
  | "January" => some 1
  | "February" => some 2
  | "March" => some 3
  | "April" => some 4
  | "May" => some 5
  | "June" => some 6
  | "July" => some 7
  | "August" => some 8
  | "September" => some 9
  | "October" => some 10
  | "November" => some 11
  | "December" => some 12
  | _ => none

/-- Gregorian leap-year rule. -/
def isLeapYear (y : Int) : Bool := y % 4 == 0 && (y % 100 != 0 || y % 400 == 0)

/-- Number of days of month `m` (1..12) in year `y`. -/
def daysInMonth (y : Int) (m : Nat) : Int :=
  if m == 2 then (if isLeapYear y then 29 else 28)
  else if m == 4 || m == 6 || m == 9 || m == 11 then 30
  else 31

/-- Lines 20-22 of the source: `pd.to_datetime(year-monthname-day,
errors=coerce)`.  The parser resolves the month name and validates the day
against the Gregorian calendar; an invalid combination becomes NaT
(`none`) instead of raising. -/
def to_datetime_coerce (y : Int) (m : String) (d : Int) : Option ParsedDate :=
  match monthNumber m with
  | none => none
  | some mn => if 1 ≤ d ∧ d ≤ daysInMonth y mn then some ⟨y, mn, d⟩ else none

/-- The derived `arrival_date` column of one row. -/
def arrival_date (r : Row) : Option ParsedDate :=
  to_datetime_coerce r.arrival_date_year r.arrival_date_month r.arrival_date_day_of_month

/-- The preprocessing step: every row of the table, paired with its derived
arrival date.  Total: it never raises. -/
def preprocess (df : Table) : List (Row × Option ParsedDate) :=
  df.map (fun r => (r, arrival_date r))

/-- Specification-side predicate: the three raw fields form a valid
calendar date (known month name, day within the month length). -/
def isValidCalendarDate (y : Int) (m : String) (d : Int) : Bool :=
  match monthNumber m with
  | none => false
  | some mn => decide (1 ≤ d) && decide (d ≤ daysInMonth y mn)

/-- Stable descending insertion (by the second component): `p` is placed
before the first element it is greater than or equal to, so earlier
elements win ties. -/
def insertDesc {α β : Type*} [LinearOrder β] (p : α × β) : List (α × β) → List (α × β)
  | [] => [p]
  | q :: qs => if q.2 ≤ p.2 then p :: q :: qs else q :: insertDesc p qs

/-- Stable descending sort by the second component, as `sort_values`
(descending) performs on a counts/means series. -/
def sortDesc {α β : Type*} [LinearOrder β] : List (α × β) → List (α × β)
  | [] => []
  | p :: ps => insertDesc p (sortDesc ps)

/-- `Series.value_counts()`: one pair per distinct value with its count,
most frequent first; ties stay in order of first appearance. -/
def value_counts {α : Type*} [DecidableEq α] (xs : List α) : List (α × Nat) :=
  sortDesc ((unique xs).map (fun v => (v, xs.count v)))

/-- A count `c` out of `n`, as a percentage (`normalize=True` then
`* 100`). -/
def pct (n c : Nat) : ℚ := (c : ℚ) / (n : ℚ) * 100

/-- Line 38: `df_filtered.is_canceled.value_counts(normalize=True) * 100`. -/
def cancel_rate (view : Table) : List (Bool × ℚ) :=
  (value_counts (view.map Row.is_canceled)).map
    (fun p => (p.1, pct (view.map Row.is_canceled).length p.2))

/-- `Series.round(1)`: rounding to one decimal place. -/
def round1 (q : ℚ) : ℚ := (round (q * 10) : ℤ) / 10

/-- `value_counts(normalize=True).mul(100).round(1)` over the non-null
values of a column. -/
def normShares {α : Type*} [DecidableEq α] (xs : List α) : List (α × ℚ) :=
  (value_counts xs).map (fun p => (p.1, round1 (pct xs.length p.2)))

/-- Line 106: market-segment shares of the filtered view. -/
def segment (view : Table) : List (String × ℚ) :=
  normShares (view.filterMap Row.market_segment)

/-- Line 121: distribution-channel shares of the filtered view. -/
def channel (view : Table) : List (String × ℚ) :=
  normShares (view.filterMap Row.distribution_channel)

/-- Line 74: `df_filtered.country.value_counts().head(10)`. -/
def top_countries (view : Table) : List (String × Nat) :=
  (value_counts (view.filterMap Row.country)).take 10

/-- Code-point lexicographic comparison on character lists, as Python
compares strings. -/
def strLtAux : List Char → List Char → Bool
  | [], [] => false
  | [], _ :: _ => true
  | _ :: _, [] => false
  | a :: as, b :: bs =>
      if a.toNat < b.toNat then true
      else if b.toNat < a.toNat then false
      else strLtAux as bs

/-- Code-point lexicographic order on strings. -/
def strLt (s t : String) : Bool := strLtAux s.data t.data

/-- Ascending insertion for group keys (keys are pairwise distinct). -/
def insertAsc (s : String) : List String → List String
  | [] => [s]
  | t :: ts => if strLt t s then t :: insertAsc s ts else s :: t :: ts

/-- Ascending sort of the group keys, as `groupby(sort=True)` orders
them. -/
def sortAsc : List String → List String
  | [] => []
  | s :: ss => insertAsc s (sortAsc ss)

/-- Line 148, the groupby part: `df_filtered.groupby(country).adr.mean()`
-- the mean ADR per country, keys in ascending order. -/
def groupby_mean_adr (view : Table) : List (String × ℚ) :=
  (sortAsc (unique (view.filterMap Row.country))).map
    (fun c =>
      let vals := (view.filter (fun r => decide (r.country = some c))).map Row.adr
      (c, vals.sum / (vals.length : ℚ)))

/-- Line 148: the mean ADR per country, sorted descending, top 10. -/
def top_adr (view : Table) : List (String × ℚ) :=
  (sortDesc (groupby_mean_adr view)).take 10

/-- Line 60: `value_counts().reindex(month_order)` -- the monthly booking
counts, reindexed to the canonical month order; a month absent from the
view gets `none` (NaN). -/
def monthly (view : Table) : List (String × Option Nat) :=
  month_order.map (fun m => (m, (value_counts (view.map Row.arrival_date_month)).lookup m))

/-- Line 50: `countplot` by hotel -- one count per distinct hotel, in
order of appearance. -/
def hotel_counts (view : Table) : List (String × Nat) :=
  (unique (view.map Row.hotel)).map (fun h => (h, (view.map Row.hotel).count h))

/-- Line 86: lead-time values grouped by cancellation status. -/
def lead_time_by_status (view : Table) : List (Bool × List Int) :=
  (unique (view.map Row.is_canceled)).map
    (fun b => (b, (view.filter (fun r => decide (r.is_canceled = b))).map Row.lead_time))

/-- Line 97: ADR values grouped by hotel. -/
def adr_by_hotel (view : Table) : List (String × List ℚ) :=
  (unique (view.map Row.hotel)).map
    (fun h => (h, (view.filter (fun r => decide (r.hotel = h))).map Row.adr))

/-- Line 136: the derived total-stay column (week + weekend nights). -/
def total_stay (view : Table) : List Int :=
  view.map (fun r => r.stays_in_week_nights + r.stays_in_weekend_nights)

/-- Line 160: sums of adults, children and babies over the view. -/
def guests (view : Table) : List (String × Int) :=
  [("adults", (view.map Row.adults).sum),
   ("children", (view.map Row.children).sum),
   ("babies", (view.map Row.babies).sum)]

/-- The data a panel hands to its chart call. -/
inductive Chart where
  | pieChart : List (String × ℚ) → Chart
  | barN : List (String × Nat) → Chart
  | barQ : List (String × ℚ) → Chart
  | barZ : List (String × Int) → Chart
  | lineN : List (String × Option Nat) → Chart
  | boxB : List (Bool × List Int) → Chart
  | boxS : List (String × List ℚ) → Chart
  | hist : List Int → Chart
  deriving DecidableEq

/-- `ax.pie(values, labels=labels)`: matplotlib rejects negative wedge
sizes, then rejects a label list whose length differs from the value
list; otherwise the wedges are the labels paired with the values in
order. -/
def ax_pie (values : List ℚ) (labels : List String) :
    Except String (List (String × ℚ)) :=
  if values.any (fun x => decide (x < 0)) then
    Except.error "Wedge sizes x must be non negative values"
  else if labels.length = values.length then Except.ok (labels.zip values)
  else Except.error "label must be of length x"

/-- One dashboard panel: its subheader text, the label of its
`logging.error` message, and the statistic-plus-chart computation guarded
by the try/except. -/
structure Panel where
  header : String
  errLabel : String
  compute : Table → Except String Chart

/-- One user-visible rendering action of a panel. -/
inductive Event where
  | render : String → Event
  | chart : Chart → Event
  deriving DecidableEq

/-- What running one panel produces: the events rendered to the page and
the diagnostic logged (if any). -/
structure PanelOutput where
  rendered : List Event
  logged : Option String
  deriving DecidableEq

/-- One try/except block of the source: the subheader is rendered first;
then the statistic and chart are computed; on failure the exception is
caught and logged with the panel label, and no further rendering
happens -- the subheader already emitted stays on the page. -/
def runPanel (p : Panel) (view : Table) : PanelOutput :=
  match p.compute view with
  | Except.ok c => ⟨[Event.render p.header, Event.chart c], none⟩
  | Except.error e => ⟨[Event.render p.header], some (p.errLabel ++ ": " ++ e)⟩

/-- Lines 37-39: the cancellation-rate statistic and its pie call with the
positionally fixed labels. -/
def panel1_compute (view : Table) : Except String Chart :=
  (ax_pie ((cancel_rate view).map Prod.snd) ["Not Canceled", "Canceled"]).map
    Chart.pieChart

/-- Panel 1, Booking Cancellation Rate. -/
def panel1 : Panel :=
  ⟨"📉 Booking Cancellation Rate", "Cancellation chart error", panel1_compute⟩

/-- Panel 2, Bookings by Hotel Type. -/
def panel2 : Panel :=
  ⟨"🏨 Bookings by Hotel Type", "Hotel type chart error",
   fun v => Except.ok (Chart.barN (hotel_counts v))⟩

/-- Panel 3, Monthly Booking Trends. -/
def panel3 : Panel :=
  ⟨"📅 Monthly Booking Trends", "Monthly trend chart error",
   fun v => Except.ok (Chart.lineN (monthly v))⟩

/-- Panel 4, Top 10 Countries by Bookings. -/
def panel4 : Panel :=
  ⟨"🌍 Top 10 Countries by Bookings", "Top countries chart error",
   fun v => Except.ok (Chart.barN (top_countries v))⟩

/-- Panel 5, Lead Time vs Cancellation. -/
def panel5 : Panel :=
  ⟨"⏱️ Lead Time vs Cancellation", "Lead time boxplot error",
   fun v => Except.ok (Chart.boxB (lead_time_by_status v))⟩

/-- Panel 6, ADR by Hotel Type. -/
def panel6 : Panel :=
  ⟨"💰 ADR by Hotel Type", "ADR chart error",
   fun v => Except.ok (Chart.boxS (adr_by_hotel v))⟩

/-- Panel 7, Market Segment Share. -/
def panel7 : Panel :=
  ⟨"🎯 Market Segment Share (%)", "Market segment error",
   fun v => Except.ok (Chart.barQ (segment v))⟩

/-- Panel 8, Distribution Channel Share. -/
def panel8 : Panel :=
  ⟨"📦 Distribution Channel Share (%)", "Distribution channel error",
   fun v => Except.ok (Chart.barQ (channel v))⟩

/-- Panel 9, Stay Duration. -/
def panel9 : Panel :=
  ⟨"🛏️ Stay Duration (Weekday + Weekend)", "Stay duration error",
   fun v => Except.ok (Chart.hist (total_stay v))⟩

/-- Panel 10, Top 10 Countries by ADR. -/
def panel10 : Panel :=
  ⟨"🌐 Top 10 Countries by ADR", "Top ADR chart error",
   fun v => Except.ok (Chart.barQ (top_adr v))⟩

/-- Panel 11, Guest Composition. -/
def panel11 : Panel :=
  ⟨"👨‍👩‍👧‍👦 Guest Composition", "Guest composition chart error",
   fun v => Except.ok (Chart.barZ (guests v))⟩

/-- The eleven panels, in source order. -/
def panels : List Panel :=
  [panel1, panel2, panel3, panel4, panel5, panel6,
   panel7, panel8, panel9, panel10, panel11]

/-- The whole dashboard body: each panel run on the filtered view,
independently of all the others. -/
def dashboard (view : Table) : List PanelOutput :=
  panels.map (fun p => runPanel p view)

/-- A typical valid row, used to build concrete test tables. -/
def baseRow : Row :=
  { hotel := "Resort Hotel", is_canceled := false, arrival_date_year := 2016,
    arrival_date_month := "July", arrival_date_day_of_month := 1,
    country := some "PRT", market_segment := some "Direct",
    distribution_channel := some "Direct", lead_time := 3, adr := 75,
    stays_in_week_nights := 2, stays_in_weekend_nights := 1,
    adults := 2, children := 0, babies := 0 }

/-- A row whose arrival-month string is not one of the twelve canonical
month names. -/
def smarchRow : Row := { baseRow with arrival_date_month := "Smarch" }

/-- A row with a missing (NaN) market segment. -/
def nullSegRow : Row := { baseRow with market_segment := none }

/-- A row from country "ZZ" with ADR 5. -/
def zzRow : Row := { baseRow with country := some "ZZ", adr := 5 }

/-- A row from country "AA" with ADR 5. -/
def aaRow : Row := { baseRow with country := some "AA", adr := 5 }

/-- A canceled booking row. -/
def cancRow : Row := { baseRow with is_canceled := true }

section Lemmas

variable {α : Type*} {β : Type*}

theorem uniqueAux_cons [DecidableEq α] (x : α) (xs seen : List α) :
    uniqueAux (x :: xs) seen =
      if x ∈ seen then uniqueAux xs seen else x :: uniqueAux xs (x :: seen) := rfl

theorem mem_uniqueAux [DecidableEq α] (xs : List α) :
    ∀ (seen : List α) (a : α), a ∈ uniqueAux xs seen ↔ a ∈ xs ∧ a ∉ seen := by
  induction xs with
  | nil => intro seen a; simp [uniqueAux]
  | cons x xs ih =>
      intro seen a
      rw [uniqueAux_cons]
      by_cases hx : x ∈ seen
      · rw [if_pos hx, ih seen a, List.mem_cons]
        by_cases hax : a = x
        · subst hax; simp [hx]
        · simp [hax]
      · rw [if_neg hx, List.mem_cons, ih (x :: seen) a, List.mem_cons, List.mem_cons]
        by_cases hax : a = x
        · subst hax; simp [hx]
        · simp [hax]

theorem mem_unique [DecidableEq α] (xs : List α) (a : α) :
    a ∈ unique xs ↔ a ∈ xs := by
  simp [unique, mem_uniqueAux]

theorem nodup_uniqueAux [DecidableEq α] (xs : List α) :
    ∀ seen : List α, (uniqueAux xs seen).Nodup := by
  induction xs with
  | nil => intro seen; simp [uniqueAux]
  | cons x xs ih =>
      intro seen
      rw [uniqueAux_cons]
      by_cases hx : x ∈ seen
      · rw [if_pos hx]; exact ih seen
      · rw [if_neg hx]
        refine List.Nodup.cons ?_ (ih (x :: seen))
        intro hmem
        exact ((mem_uniqueAux xs (x :: seen) x).1 hmem).2 (List.mem_cons_self _ _)

theorem nodup_unique [DecidableEq α] (xs : List α) : (unique xs).Nodup :=
  nodup_uniqueAux xs []

theorem insertDesc_cons [LinearOrder β] (p q : α × β) (qs : List (α × β)) :
    insertDesc p (q :: qs) =
      if q.2 ≤ p.2 then p :: q :: qs else q :: insertDesc p qs := rfl

theorem perm_insertDesc [LinearOrder β] (p : α × β) (l : List (α × β)) :
    List.Perm (insertDesc p l) (p :: l) := by
  induction l with
  | nil => simp [insertDesc]
  | cons q qs ih =>
      rw [insertDesc_cons]
      by_cases h : q.2 ≤ p.2
      · rw [if_pos h]
      · rw [if_neg h]
        exact (ih.cons q).trans (List.Perm.swap p q qs)

theorem perm_sortDesc [LinearOrder β] (l : List (α × β)) :
    List.Perm (sortDesc l) l := by
  induction l with
  | nil => simp [sortDesc]
  | cons p ps ih => exact (perm_insertDesc p (sortDesc ps)).trans (ih.cons p)

theorem pairwise_insertDesc [LinearOrder β] (p : α × β) (l : List (α × β))
    (h : l.Pairwise (fun a b => b.2 ≤ a.2)) :
    (insertDesc p l).Pairwise (fun a b => b.2 ≤ a.2) := by
  induction l with
  | nil => simp [insertDesc]
  | cons q qs ih =>
      rcases List.pairwise_cons.1 h with ⟨hq, hqs⟩
      rw [insertDesc_cons]
      by_cases hle : q.2 ≤ p.2
      · rw [if_pos hle]
        refine List.pairwise_cons.2 ⟨?_, h⟩
        intro b hb
        rcases List.mem_cons.1 hb with rfl | hb
        · exact hle
        · exact (hq b hb).trans hle
      · rw [if_neg hle]
        refine List.pairwise_cons.2 ⟨?_, ih hqs⟩
        intro b hb
        rcases List.mem_cons.1 ((perm_insertDesc p qs).mem_iff.1 hb) with rfl | hb
        · exact le_of_lt (lt_of_not_le hle)
        · exact hq b hb

theorem pairwise_sortDesc [LinearOrder β] (l : List (α × β)) :
    (sortDesc l).Pairwise (fun a b => b.2 ≤ a.2) := by
  induction l with
  | nil => simp [sortDesc]
  | cons p ps ih => exact pairwise_insertDesc p (sortDesc ps) ih

theorem filter_insertDesc [LinearOrder β] [DecidableEq β] (p : α × β) (l : List (α × β)) (c : β) :
    (insertDesc p l).filter (fun q => decide (q.2 = c)) =
      if p.2 = c then p :: l.filter (fun q => decide (q.2 = c))
      else l.filter (fun q => decide (q.2 = c)) := by
  induction l with
  | nil => by_cases h : p.2 = c <;> simp [insertDesc, h]
  | cons q qs ih =>
      rw [insertDesc_cons]
      by_cases hle : q.2 ≤ p.2
      · rw [if_pos hle, List.filter_cons]
        by_cases hp : p.2 = c <;> simp [hp]
      · rw [if_neg hle, List.filter_cons]
        have hlt : p.2 < q.2 := lt_of_not_le hle
        by_cases hqc : q.2 = c
        · have hp : p.2 ≠ c := ne_of_lt (hqc ▸ hlt)
          rw [if_neg hp] at ih ⊢
          simp only [hqc, decide_True, if_true, ih, List.filter_cons, if_pos hqc]
        · rw [List.filter_cons]
          simp only [hqc, decide_False, Bool.false_eq_true, if_false, ih]

theorem filter_sortDesc [LinearOrder β] [DecidableEq β] (l : List (α × β)) (c : β) :
    (sortDesc l).filter (fun q => decide (q.2 = c)) =
      l.filter (fun q => decide (q.2 = c)) := by
  induction l with
  | nil => simp [sortDesc]
  | cons p ps ih =>
      by_cases hp : p.2 = c <;>
        simp [sortDesc, filter_insertDesc, List.filter_cons, hp, ih]

end Lemmas

section Lemmas2

variable {α : Type*} {β : Type*}

theorem sum_map_indicator [DecidableEq α] (l : List α) (x : α) (h : l.Nodup) (hx : x ∈ l) :
    (l.map (fun v => if x == v then (1 : ℕ) else 0)).sum = 1 := by
  induction l with
  | nil => cases hx
  | cons b l ih =>
      rcases List.mem_cons.1 hx with rfl | hx2
      · have hnotin : x ∉ l := (List.nodup_cons.1 h).1
        rw [List.map_cons, List.sum_cons, if_pos (beq_self_eq_true x)]
        have hz : (l.map (fun v => if x == v then (1 : ℕ) else 0)).sum = 0 := by
          rw [List.sum_eq_zero]
          intro y hy
          rcases List.mem_map.1 hy with ⟨v, hv, rfl⟩
          rw [if_neg]
          intro hbe
          exact hnotin (beq_iff_eq.1 hbe ▸ hv)
        rw [hz]
      · have hb : (x == b) = false := by
          rw [beq_eq_false_iff_ne]
          rintro rfl
          exact (List.nodup_cons.1 h).1 hx2
        rw [List.map_cons, List.sum_cons, hb, if_neg (by simp), zero_add,
          ih (List.nodup_cons.1 h).2 hx2]

theorem sum_map_count [DecidableEq α] (xs l : List α) (h : l.Nodup)
    (hc : ∀ x ∈ xs, x ∈ l) :
    (l.map (fun v => xs.count v)).sum = xs.length := by
  induction xs with
  | nil => simp
  | cons x xs ih =>
      have hx : x ∈ l := hc x (List.mem_cons_self _ _)
      have hpt : l.map (fun v => (x :: xs).count v) =
          l.map (fun v => xs.count v + if x == v then 1 else 0) :=
        List.map_congr_left (fun v _ => List.count_cons v x xs)
      rw [hpt, List.sum_map_add, ih (fun y hy => hc y (List.mem_cons_of_mem _ hy)),
        sum_map_indicator l x h hx, List.length_cons]

theorem sum_value_counts [DecidableEq α] (xs : List α) :
    ((value_counts xs).map Prod.snd).sum = xs.length := by
  have hperm := (perm_sortDesc ((unique xs).map (fun v => (v, xs.count v)))).map Prod.snd
  rw [value_counts, hperm.sum_eq, List.map_map]
  have hcomp : (Prod.snd ∘ fun v => (v, xs.count v)) = fun v => xs.count v := rfl
  rw [hcomp]
  exact sum_map_count xs (unique xs) (nodup_unique xs) (fun x hx => (mem_unique xs x).2 hx)

theorem pct_nonneg (n c : ℕ) : 0 ≤ pct n c := by
  unfold pct
  positivity

theorem pct_self (n : ℕ) (hn : n ≠ 0) : pct n n = 100 := by
  unfold pct
  rw [div_self (by exact_mod_cast hn), one_mul]

theorem pct_add (n a b : ℕ) : pct n (a + b) = pct n a + pct n b := by
  unfold pct
  push_cast
  ring

theorem sum_map_pct (l : List (α × ℕ)) (n : ℕ) :
    (l.map (fun p => pct n p.2)).sum = pct n ((l.map Prod.snd).sum) := by
  induction l with
  | nil => simp [pct]
  | cons p l ih =>
      rw [List.map_cons, List.sum_cons, ih, List.map_cons, List.sum_cons, pct_add]

theorem abs_round1_sub (q : ℚ) : |round1 q - q| ≤ 1 / 20 := by
  have h := abs_sub_round (q * 10)
  unfold round1
  have heq : (round (q * 10) : ℚ) / 10 - q = -((q * 10 - round (q * 10)) / 10) := by
    ring
  rw [heq, abs_neg, abs_div, abs_of_pos (by norm_num : (0 : ℚ) < 10)]
  linarith

theorem sum_round1_near (l : List ℚ) :
    |(l.map round1).sum - l.sum| ≤ l.length * (1 / 20) := by
  induction l with
  | nil => simp
  | cons q l ih =>
      rw [List.map_cons, List.sum_cons, List.sum_cons, List.length_cons]
      have h1 := abs_round1_sub q
      have htri : |round1 q + (l.map round1).sum - (q + l.sum)| ≤
          |round1 q - q| + |(l.map round1).sum - l.sum| := by
        have : round1 q + (l.map round1).sum - (q + l.sum) =
            (round1 q - q) + ((l.map round1).sum - l.sum) := by ring
        rw [this]
        exact abs_add _ _
      have : (l.length + 1 : ℚ) * (1 / 20) = 1 / 20 + l.length * (1 / 20) := by ring
      push_cast
      linarith

theorem lookup_map_self (idx : List String) (f : String → β) (m : String) (hm : m ∈ idx) :
    (idx.map (fun x => (x, f x))).lookup m = some (f m) := by
  induction idx with
  | nil => cases hm
  | cons x idx ih =>
      rw [List.map_cons]
      by_cases hx : m = x
      · subst hx
        simp [List.lookup]
      · have hbe : (m == x) = false := by rw [beq_eq_false_iff_ne]; exact hx
        have hm2 : m ∈ idx := by
          rcases List.mem_cons.1 hm with rfl | h2
          · exact absurd rfl hx
          · exact h2
        simp [List.lookup, hbe, ih hm2]

theorem lookup_cons_ne (k : String) (v : β) (l : List (String × β)) (m : String)
    (h : (m == k) = false) : List.lookup m ((k, v) :: l) = List.lookup m l := by
  simp [List.lookup, h]

theorem lookup_eq_none_of_forall (l : List (String × β)) (m : String)
    (h : ∀ p ∈ l, p.1 ≠ m) : l.lookup m = none := by
  induction l with
  | nil => rfl
  | cons p l ih =>
      obtain ⟨k, v⟩ := p
      have hk : (m == k) = false := by
        rw [beq_eq_false_iff_ne]
        intro hmk
        exact h (k, v) (List.mem_cons_self _ _) (by simp [hmk])
      rw [lookup_cons_ne k v l m hk]
      exact ih (fun q hq => h q (List.mem_cons_of_mem _ hq))

theorem lookup_eq_some_of_nodup (l : List (String × β)) (m : String) (c : β)
    (h : (l.map Prod.fst).Nodup) (hm : (m, c) ∈ l) : l.lookup m = some c := by
  induction l with
  | nil => cases hm
  | cons p l ih =>
      obtain ⟨k, v⟩ := p
      rcases List.mem_cons.1 hm with heq | hm2
      · injection heq with h1 h2
        subst h1
        subst h2
        simp [List.lookup]
      · have hne : (m == k) = false := by
          rw [beq_eq_false_iff_ne]
          rintro rfl
          have hmm : m ∈ l.map Prod.fst := List.mem_map_of_mem Prod.fst hm2
          rw [List.map_cons] at h
          exact (List.nodup_cons.1 h).1 hmm
        rw [List.map_cons] at h
        rw [lookup_cons_ne k v l m hne]
        exact ih (List.nodup_cons.1 h).2 hm2

theorem unique_two_bool (l : List Bool) (ht : true ∈ l) (hf : false ∈ l) :
    unique l = [true, false] ∨ unique l = [false, true] := by
  have hnd := nodup_unique l
  have ht2 : true ∈ unique l := (mem_unique l true).2 ht
  have hf2 : false ∈ unique l := (mem_unique l false).2 hf
  revert hnd ht2 hf2
  generalize unique l = u
  intro hnd ht2 hf2
  match u with
  | [] => cases ht2
  | [a] =>
      rw [List.mem_singleton] at ht2 hf2
      rw [← ht2] at hf2
      cases hf2
  | a :: b :: t =>
      have hab : a ≠ b := by
        intro hab
        rcases List.nodup_cons.1 hnd with ⟨hn, _⟩
        exact hn (hab ▸ List.mem_cons_self _ _)
      match t with
      | [] => cases a <;> cases b <;> simp_all
      | c :: t2 =>
          exfalso
          rcases List.nodup_cons.1 hnd with ⟨hna, hnd2⟩
          rcases List.nodup_cons.1 hnd2 with ⟨hnb, _⟩
          have hac : a ≠ c := fun h => hna (h ▸ (by simp))
          have hbc : b ≠ c := fun h => hnb (h ▸ (by simp))
          cases a <;> cases b <;> cases c <;> simp_all

theorem unique_const [DecidableEq α] (xs : List α) (b : α) (hne : xs ≠ [])
    (hall : ∀ x ∈ xs, x = b) : unique xs = [b] := by
  have hb : b ∈ unique xs := by
    rw [mem_unique]
    match xs, hne with
    | x :: t, _ => exact hall x (List.mem_cons_self _ _) ▸ List.mem_cons_self _ _
  have hnd := nodup_unique xs
  have hmem : ∀ a ∈ unique xs, a = b := fun a ha => hall a ((mem_unique _ _).1 ha)
  revert hb hnd hmem
  generalize unique xs = u
  intro hb hnd hmem
  match u with
  | [] => cases hb
  | a :: t =>
      have ha : a = b := hmem a (List.mem_cons_self _ _)
      subst ha
      match t with
      | [] => rfl
      | c :: t2 =>
          exfalso
          have hc : c = a := hmem c (by simp)
          rcases List.nodup_cons.1 hnd with ⟨hn, _⟩
          exact hn (by simp [← hc])

theorem value_counts_const [DecidableEq α] (xs : List α) (b : α) (hne : xs ≠ [])
    (hall : ∀ x ∈ xs, x = b) : value_counts xs = [(b, xs.count b)] := by
  rw [value_counts, unique_const xs b hne hall]
  rfl

theorem value_counts_two_bool (xs : List Bool)
    (hf : 0 < xs.count false) (hlt : xs.count false < xs.count true) :
    value_counts xs = [(true, xs.count true), (false, xs.count false)] := by
  have ht : 0 < xs.count true := lt_trans hf hlt
  have htm : true ∈ xs := List.count_pos_iff.1 ht
  have hfm : false ∈ xs := List.count_pos_iff.1 hf
  rcases unique_two_bool xs htm hfm with hu | hu <;> rw [value_counts, hu]
  · show sortDesc [(true, xs.count true), (false, xs.count false)] = _
    show insertDesc (true, xs.count true) (insertDesc (false, xs.count false) []) = _
    show insertDesc (true, xs.count true) [(false, xs.count false)] = _
    rw [insertDesc_cons]
    exact if_pos (le_of_lt hlt)
  · show sortDesc [(false, xs.count false), (true, xs.count true)] = _
    show insertDesc (false, xs.count false) (insertDesc (true, xs.count true) []) = _
    show insertDesc (false, xs.count false) [(true, xs.count true)] = _
    rw [insertDesc_cons, if_neg (not_le.2 hlt)]
    rfl

end Lemmas2

section Claims

/-- C1 (amended): for every table and every pair of selections the filtered
view is an order-preserving row subset of the table; and the two default
selections reproduce the full table provided the arrival month of every
row is one of the twelve canonical month names (the month default is
the fixed canonical list, so a row with a non-canonical month string is
dropped under the defaults). -/
theorem c1_theorem (df : Table) (hs ms : List String)
    (hmonths : ∀ r ∈ df, r.arrival_date_month ∈ month_order) :
    (df_filtered df hs ms).Sublist df ∧
      df_filtered df (hotel_default df) (month_default df) = df := by
  constructor
  · exact List.filter_sublist df
  · rw [df_filtered]
    apply List.filter_eq_self.2
    intro r hr
    rw [Bool.and_eq_true]
    constructor
    · have hmem : r.hotel ∈ hotel_default df := by
        rw [hotel_default, mem_unique]
        exact List.mem_map_of_mem Row.hotel hr
      simpa using hmem
    · have hmem : r.arrival_date_month ∈ month_default df := hmonths r hr
      simpa using hmem

/-- Witness for C1 at a concrete one-row table with canonical month. -/
theorem c1_witness :
    (∀ r ∈ ([baseRow] : Table), r.arrival_date_month ∈ month_order) ∧
      ((df_filtered [baseRow] ["City Hotel"] []).Sublist [baseRow] ∧
        df_filtered [baseRow] (hotel_default [baseRow]) (month_default [baseRow]) =
          [baseRow]) :=
  ⟨by decide, c1_theorem [baseRow] ["City Hotel"] [] (by decide)⟩

/-- Counterexample for C1 as frozen: a table whose single row carries a
non-canonical arrival-month string is nonempty, yet filtering with both
controls at their default values yields the empty view, not the full
table. -/
theorem c1_counterexample :
    df_filtered [smarchRow] (hotel_default [smarchRow]) (month_default [smarchRow]) = [] ∧
      ([smarchRow] : Table) ≠ [] := by
  decide

/-- C2: an empty hotel selection yields zero rows for every month
selection, and an empty month selection yields zero rows for every hotel
selection -- no implicit select-all fallback. -/
theorem c2_theorem (df : Table) (hs ms : List String) :
    df_filtered df [] ms = [] ∧ df_filtered df hs [] = [] := by
  constructor <;> · rw [df_filtered]; simp

/-- C4 (amended): the default of the hotel control is exactly the
duplicate-free list of hotel values present in the table, but the default
of the month control is the fixed canonical twelve-month list,
independent of the values present
in the table. -/
theorem c4_theorem (df : Table) :
    (hotel_default df).Nodup ∧
      (∀ x, x ∈ hotel_default df ↔ ∃ r ∈ df, r.hotel = x) ∧
      month_default df = month_order := by
  refine ⟨nodup_unique _, fun x => ?_, rfl⟩
  rw [hotel_default, mem_unique, List.mem_map]

/-- Counterexample for C4 as frozen: on a table whose only arrival month is
July, the default of the month control is the full twelve-month list, not the
set of distinct month values present. -/
theorem c4_counterexample :
    month_default [baseRow] ≠ month_options [baseRow] ∧
      month_options [baseRow] = ["July"] := by
  decide

/-- C3: for every row of the loaded table, if the year/month/day fields
form a valid calendar date the derived arrival-date cell is exactly that
date; otherwise it is the null marker; and the preprocessing step is total
(every row gets a derived cell, none raises). -/
theorem c3_theorem (df : Table) (r : Row) (hr : r ∈ df) :
    (∀ mn, monthNumber r.arrival_date_month = some mn →
        isValidCalendarDate r.arrival_date_year r.arrival_date_month
            r.arrival_date_day_of_month = true →
        arrival_date r =
          some ⟨r.arrival_date_year, mn, r.arrival_date_day_of_month⟩) ∧
      (isValidCalendarDate r.arrival_date_year r.arrival_date_month
          r.arrival_date_day_of_month = false →
        arrival_date r = none) ∧
      (r, arrival_date r) ∈ preprocess df := by
  refine ⟨?_, ?_, ?_⟩
  · intro mn hmn hvalid
    rw [isValidCalendarDate] at hvalid
    rw [hmn] at hvalid
    simp only [Bool.and_eq_true, decide_eq_true_eq] at hvalid
    rw [arrival_date, to_datetime_coerce, hmn]
    exact if_pos hvalid
  · intro hvalid
    rcases hmn : monthNumber r.arrival_date_month with _ | mn
    · rw [arrival_date, to_datetime_coerce, hmn]
    · rw [isValidCalendarDate] at hvalid
      rw [hmn] at hvalid
      simp only [Bool.and_eq_false_iff, decide_eq_false_iff_not] at hvalid
      rw [arrival_date, to_datetime_coerce, hmn]
      exact if_neg (by
        rintro ⟨h1, h2⟩
        rcases hvalid with h | h
        · exact h h1
        · exact h h2)
  · exact List.mem_map_of_mem _ hr

/-- Witness for C3: the valid leap date 29 February 2016 parses to that
date, for a row of a concrete table. -/
theorem c3_witness :
    ({ baseRow with arrival_date_month := "February", arrival_date_day_of_month := 29 } : Row) ∈
        ([{ baseRow with arrival_date_month := "February", arrival_date_day_of_month := 29 }] :
          Table) ∧
      arrival_date
          { baseRow with arrival_date_month := "February", arrival_date_day_of_month := 29 } =
        some ⟨2016, 2, 29⟩ :=
  ⟨by decide,
    (c3_theorem
        [{ baseRow with arrival_date_month := "February", arrival_date_day_of_month := 29 }]
        { baseRow with arrival_date_month := "February", arrival_date_day_of_month := 29 }
        (by decide)).1 2 rfl (by decide)⟩

/-- The cancellation-rate percentages of a nonempty view sum to exactly
100. -/
theorem cancel_rate_sum (v : Table) (hv : v ≠ []) :
    ((cancel_rate v).map Prod.snd).sum = 100 := by
  rw [cancel_rate, List.map_map]
  have hcomp : (Prod.snd ∘ fun p : Bool × ℕ =>
      (p.1, pct (v.map Row.is_canceled).length p.2)) =
      fun p : Bool × ℕ => pct (v.map Row.is_canceled).length p.2 := rfl
  rw [hcomp, sum_map_pct, sum_value_counts]
  apply pct_self
  rw [List.length_map]
  exact fun h => hv (List.length_eq_zero.1 h)

/-- The rounded normalized shares of a nonempty series sum to 100 within
one half-unit of the last decimal place per category. -/
theorem normShares_sum_near {γ : Type*} [DecidableEq γ] (xs : List γ) (hx : xs ≠ []) :
    |((normShares xs).map Prod.snd).sum - 100| ≤ (normShares xs).length * (1 / 20) := by
  rw [normShares, List.map_map]
  have hcomp : (Prod.snd ∘ fun p : γ × ℕ => (p.1, round1 (pct xs.length p.2))) =
      (round1 ∘ fun p : γ × ℕ => pct xs.length p.2) := rfl
  rw [hcomp, ← List.map_map]
  have hsum : ((value_counts xs).map (fun p : γ × ℕ => pct xs.length p.2)).sum = 100 := by
    rw [sum_map_pct, sum_value_counts]
    exact pct_self _ (fun h => hx (List.length_eq_zero.1 h))
  have hnear := sum_round1_near ((value_counts xs).map (fun p : γ × ℕ => pct xs.length p.2))
  rw [hsum, List.length_map] at hnear
  rw [List.length_map]
  exact hnear

/-- C5 (amended): over every filtered view, the cancellation percentages
sum to exactly 100 when the view is nonempty; the market-segment and
distribution-channel rounded shares each sum to 100 up to the accumulated
one-decimal rounding error (at most 0.05 per category), provided the view
has at least one non-null value in the respective column. -/
theorem c5_theorem (df : Table) (hs ms : List String)
    (h1 : df_filtered df hs ms ≠ [])
    (h2 : (df_filtered df hs ms).filterMap Row.market_segment ≠ [])
    (h3 : (df_filtered df hs ms).filterMap Row.distribution_channel ≠ []) :
    ((cancel_rate (df_filtered df hs ms)).map Prod.snd).sum = 100 ∧
      |((segment (df_filtered df hs ms)).map Prod.snd).sum - 100| ≤
        (segment (df_filtered df hs ms)).length * (1 / 20) ∧
      |((channel (df_filtered df hs ms)).map Prod.snd).sum - 100| ≤
        (channel (df_filtered df hs ms)).length * (1 / 20) := by
  refine ⟨cancel_rate_sum _ h1, ?_, ?_⟩
  · rw [segment]
    exact normShares_sum_near _ h2
  · rw [channel]
    exact normShares_sum_near _ h3

/-- Witness for C5 at a concrete two-row filtered view. -/
theorem c5_witness :
    df_filtered [baseRow, cancRow] ["Resort Hotel"] ["July"] ≠ [] ∧
      (df_filtered [baseRow, cancRow] ["Resort Hotel"] ["July"]).filterMap
          Row.market_segment ≠ [] ∧
      (df_filtered [baseRow, cancRow] ["Resort Hotel"] ["July"]).filterMap
          Row.distribution_channel ≠ [] ∧
      ((cancel_rate (df_filtered [baseRow, cancRow] ["Resort Hotel"] ["July"])).map
          Prod.snd).sum = 100 :=
  ⟨by decide, by decide, by decide,
    (c5_theorem [baseRow, cancRow] ["Resort Hotel"] ["July"]
        (by decide) (by decide) (by decide)).1⟩

/-- Counterexample for C5 as frozen: a nonempty filtered view whose only
row has a null market segment has an empty share list, whose percentages
sum to 0, not 100. -/
theorem c5_counterexample :
    df_filtered [nullSegRow] (hotel_default [nullSegRow]) (month_default [nullSegRow]) =
        [nullSegRow] ∧
      segment [nullSegRow] = [] ∧
      ((segment [nullSegRow]).map Prod.snd).sum = 0 :=
  ⟨by decide, rfl, rfl⟩

/-- C6 (amended): both top-10 lists contain at most 10 entries and are
sorted descending (by count, respectively by mean ADR).  Ties in panel 4
keep the first-encountered order of the countries (the count list before
sorting is in order of first appearance, and the sort is stable), while
ties in panel 10 end up in ascending country order (the groupby emits its
keys sorted ascending, and the stable descending sort preserves that order
among equal means) -- not in first-encountered order. -/
theorem c6_theorem (df : Table) (hs ms : List String) :
    (top_countries (df_filtered df hs ms)).length ≤ 10 ∧
      (top_adr (df_filtered df hs ms)).length ≤ 10 ∧
      (top_countries (df_filtered df hs ms)).Pairwise (fun p q => q.2 ≤ p.2) ∧
      (top_adr (df_filtered df hs ms)).Pairwise (fun p q => q.2 ≤ p.2) ∧
      (∀ c : ℕ,
        (value_counts ((df_filtered df hs ms).filterMap Row.country)).filter
            (fun p => decide (p.2 = c)) =
          ((unique ((df_filtered df hs ms).filterMap Row.country)).map
              (fun v => (v, ((df_filtered df hs ms).filterMap Row.country).count v))).filter
            (fun p => decide (p.2 = c))) ∧
      (∀ x : ℚ,
        (sortDesc (groupby_mean_adr (df_filtered df hs ms))).filter
            (fun p => decide (p.2 = x)) =
          (groupby_mean_adr (df_filtered df hs ms)).filter
            (fun p => decide (p.2 = x))) := by
  refine ⟨?_, ?_, ?_, ?_, ?_, ?_⟩
  · exact List.length_take_le _ _
  · exact List.length_take_le _ _
  · rw [top_countries, value_counts]
    exact (pairwise_sortDesc _).sublist (List.take_sublist _ _)
  · rw [top_adr]
    exact (pairwise_sortDesc _).sublist (List.take_sublist _ _)
  · intro c
    rw [value_counts]
    exact filter_sortDesc _ c
  · intro x
    exact filter_sortDesc _ x

/-- Counterexample for C6 as frozen: two countries tie on mean ADR; the
first-encountered order is ZZ before AA, but panel 10 lists AA before ZZ
(ascending country order), so its ties are not broken by first-encountered
order. -/
theorem c6_counterexample :
    df_filtered [zzRow, aaRow] (hotel_default [zzRow, aaRow]) (month_default [zzRow, aaRow]) =
        [zzRow, aaRow] ∧
      unique (([zzRow, aaRow] : Table).filterMap Row.country) = ["ZZ", "AA"] ∧
      top_adr [zzRow, aaRow] = [("AA", 5), ("ZZ", 5)] := by
  refine ⟨by decide, by decide, ?_⟩
  simp [top_adr, groupby_mean_adr, unique, uniqueAux, sortAsc, insertAsc, strLt, strLtAux,
    sortDesc, insertDesc, zzRow, aaRow, baseRow, List.filter_cons, List.filter_nil]

/-- The filtered view does not depend on the order or multiplicity of the
month selection, only on its membership. -/
theorem df_filtered_congr (df : Table) (hs ms ms2 : List String)
    (h : ∀ x, x ∈ ms ↔ x ∈ ms2) : df_filtered df hs ms = df_filtered df hs ms2 := by
  rw [df_filtered, df_filtered]
  apply List.filter_congr
  intro r _
  have hc : ms.contains r.arrival_date_month = ms2.contains r.arrival_date_month := by
    by_cases hm : r.arrival_date_month ∈ ms
    · have hm2 : r.arrival_date_month ∈ ms2 := (h _).1 hm
      have e1 : ms.contains r.arrival_date_month = true := by simpa using hm
      have e2 : ms2.contains r.arrival_date_month = true := by simpa using hm2
      rw [e1, e2]
    · have hm2 : r.arrival_date_month ∉ ms2 := fun hx => hm ((h _).2 hx)
      have e1 : ms.contains r.arrival_date_month = false := by simpa using hm
      have e2 : ms2.contains r.arrival_date_month = false := by simpa using hm2
      rw [e1, e2]
  rw [hc]

/-- The keys of `value_counts` are exactly the distinct values, without
duplicates. -/
theorem nodup_keys_value_counts [DecidableEq α] (xs : List α) :
    ((value_counts xs).map Prod.fst).Nodup := by
  have hperm := (perm_sortDesc ((unique xs).map (fun v => (v, xs.count v)))).map Prod.fst
  rw [value_counts]
  have hkeys : ((unique xs).map (fun v => (v, xs.count v))).map Prod.fst = unique xs := by
    rw [List.map_map]
    exact List.map_id _
  rw [hkeys] at hperm
  exact hperm.nodup_iff.2 (nodup_unique xs)

/-- Looking up a present value in `value_counts` yields its count. -/
theorem lookup_value_counts_of_mem (xs : List String) (m : String) (hm : m ∈ xs) :
    (value_counts xs).lookup m = some (xs.count m) := by
  apply lookup_eq_some_of_nodup _ _ _ (nodup_keys_value_counts xs)
  rw [value_counts]
  apply (perm_sortDesc _).mem_iff.2
  exact List.mem_map_of_mem _ ((mem_unique xs m).2 hm)

/-- Looking up an absent value in `value_counts` yields nothing. -/
theorem lookup_value_counts_of_not_mem (xs : List String) (m : String) (hm : m ∉ xs) :
    (value_counts xs).lookup m = none := by
  apply lookup_eq_none_of_forall
  intro p hp
  rw [value_counts] at hp
  have hp2 := (perm_sortDesc _).mem_iff.1 hp
  rcases List.mem_map.1 hp2 with ⟨v, hv, rfl⟩
  intro hvm
  exact hm (hvm ▸ (mem_unique xs v).1 hv)

/-- C7: the monthly trend is indexed by exactly the canonical January to
December order whatever the filtered view is; it is unchanged when the
month selection is replaced by any selection with the same members (any
selection order); a canonical month absent from the view appears with the
null marker rather than being dropped, and a present month carries its
booking count. -/
theorem c7_theorem (df : Table) (hs ms ms2 : List String)
    (hsel : ∀ x, x ∈ ms ↔ x ∈ ms2) (m : String) (hm : m ∈ month_order) :
    (monthly (df_filtered df hs ms)).map Prod.fst = month_order ∧
      monthly (df_filtered df hs ms) = monthly (df_filtered df hs ms2) ∧
      (((df_filtered df hs ms).map Row.arrival_date_month).count m = 0 →
        (monthly (df_filtered df hs ms)).lookup m = some none) ∧
      (0 < ((df_filtered df hs ms).map Row.arrival_date_month).count m →
        (monthly (df_filtered df hs ms)).lookup m =
          some (some (((df_filtered df hs ms).map Row.arrival_date_month).count m))) := by
  refine ⟨?_, ?_, ?_, ?_⟩
  · rw [monthly, List.map_map]
    exact List.map_id _
  · rw [df_filtered_congr df hs ms ms2 hsel]
  · intro hcount
    rw [monthly, lookup_map_self month_order _ m hm,
      lookup_value_counts_of_not_mem _ _ (List.count_eq_zero.1 hcount)]
  · intro hcount
    rw [monthly, lookup_map_self month_order _ m hm,
      lookup_value_counts_of_mem _ _ (List.count_pos_iff.1 hcount)]

/-- Witness for C7: the July count of a concrete one-row view, with the
month selection given in reversed order. -/
theorem c7_witness :
    (∀ x, x ∈ month_order ↔ x ∈ month_order.reverse) ∧
      "July" ∈ month_order ∧
      (monthly (df_filtered [baseRow] ["Resort Hotel"] month_order)).map Prod.fst =
        month_order :=
  ⟨fun _ => (List.mem_reverse).symm, by decide,
    (c7_theorem [baseRow] ["Resort Hotel"] month_order month_order.reverse
        (fun _ => (List.mem_reverse).symm) "July" (by decide)).1⟩

/-- C8 (amended): every panel failure is caught inside that panel and
logged with the panel-identifying label (the eleven labels are pairwise
distinct); on failure the panel renders its subheader but no chart -- the
subheader was already emitted when the failure occurred, so the panel is
not entirely absent; and the output of each panel is computed from the filtered
view alone, independently of every other panel. -/
theorem c8_theorem (view : Table) (p : Panel) (hp : p ∈ panels) (e : String)
    (he : p.compute view = Except.error e) :
    runPanel p view =
        ⟨[Event.render p.header], some (p.errLabel ++ ": " ++ e)⟩ ∧
      dashboard view = panels.map (fun q => runPanel q view) ∧
      (panels.map Panel.errLabel).Nodup := by
  refine ⟨?_, rfl, by decide⟩
  unfold runPanel
  rw [he]

/-- Witness for C8: on the empty filtered view, panel 1 fails and its
output is the lone subheader plus the logged diagnostic. -/
theorem c8_witness :
    panel1 ∈ panels ∧
      panel1.compute (df_filtered [baseRow] [] month_order) =
        Except.error "label must be of length x" ∧
      runPanel panel1 (df_filtered [baseRow] [] month_order) =
        ⟨[Event.render panel1.header],
          some (panel1.errLabel ++ ": " ++ "label must be of length x")⟩ := by
  have hp : panel1 ∈ panels := by simp [panels]
  have he : panel1.compute (df_filtered [baseRow] [] month_order) =
      Except.error "label must be of length x" := rfl
  exact ⟨hp, he, (c8_theorem (df_filtered [baseRow] [] month_order) panel1 hp _ he).1⟩

/-- Counterexample for C8 as frozen: on the empty filtered view panel 1
fails, yet its subheader is still rendered -- the rendered output of the
failing panel is not empty, contradicting that nothing is rendered for a
failing panel. -/
theorem c8_counterexample :
    df_filtered [baseRow] [] month_order = [] ∧
      (runPanel panel1 (df_filtered [baseRow] [] month_order)).logged =
        some "Cancellation chart error: label must be of length x" ∧
      (runPanel panel1 (df_filtered [baseRow] [] month_order)).rendered =
        [Event.render "📉 Booking Cancellation Rate"] ∧
      (runPanel panel1 (df_filtered [baseRow] [] month_order)).rendered ≠ [] := by
  refine ⟨by decide, rfl, rfl, ?_⟩
  intro h
  exact List.cons_ne_nil _ _ h

/-- The cancellation-rate series when both statuses occur and canceled
bookings strictly outnumber the rest: the canceled percentage comes
first. -/
theorem cancel_rate_two (v : Table)
    (hf : 0 < (v.map Row.is_canceled).count false)
    (hlt : (v.map Row.is_canceled).count false < (v.map Row.is_canceled).count true) :
    cancel_rate v =
      [(true, pct (v.map Row.is_canceled).length ((v.map Row.is_canceled).count true)),
       (false, pct (v.map Row.is_canceled).length ((v.map Row.is_canceled).count false))] := by
  rw [cancel_rate, value_counts_two_bool _ hf hlt]
  rfl

/-- C9 (amended): whenever the filtered view contains both statuses and
canceled bookings strictly outnumber non-canceled ones, panel 1 renders a
pie whose slice labeled Not Canceled carries the canceled percentage and
whose slice labeled Canceled carries the non-canceled percentage -- the
labels are positional while the values are sorted by frequency. -/
theorem c9_theorem (df : Table) (hs ms : List String)
    (hf : 0 < ((df_filtered df hs ms).map Row.is_canceled).count false)
    (hlt : ((df_filtered df hs ms).map Row.is_canceled).count false <
      ((df_filtered df hs ms).map Row.is_canceled).count true) :
    panel1_compute (df_filtered df hs ms) =
      Except.ok (Chart.pieChart
        [("Not Canceled",
            pct ((df_filtered df hs ms).map Row.is_canceled).length
              (((df_filtered df hs ms).map Row.is_canceled).count true)),
         ("Canceled",
            pct ((df_filtered df hs ms).map Row.is_canceled).length
              (((df_filtered df hs ms).map Row.is_canceled).count false))]) := by
  rw [panel1_compute, cancel_rate_two _ hf hlt]
  simp only [List.map_cons, List.map_nil]
  rw [ax_pie]
  have h1 : (decide (pct ((df_filtered df hs ms).map Row.is_canceled).length
      (((df_filtered df hs ms).map Row.is_canceled).count true) < 0)) = false :=
    decide_eq_false (not_lt.2 (pct_nonneg _ _))
  have h2 : (decide (pct ((df_filtered df hs ms).map Row.is_canceled).length
      (((df_filtered df hs ms).map Row.is_canceled).count false) < 0)) = false :=
    decide_eq_false (not_lt.2 (pct_nonneg _ _))
  simp only [List.any_cons, List.any_nil, h1, h2, Bool.or_self, Bool.or_false,
    Bool.false_eq_true, if_false, List.length_cons, List.length_nil, if_pos rfl]
  rfl

/-- Witness for C9: a view of two canceled and one non-canceled booking. -/
theorem c9_witness :
    0 < ((df_filtered [cancRow, cancRow, baseRow] ["Resort Hotel"] ["July"]).map
        Row.is_canceled).count false ∧
      ((df_filtered [cancRow, cancRow, baseRow] ["Resort Hotel"] ["July"]).map
          Row.is_canceled).count false <
        ((df_filtered [cancRow, cancRow, baseRow] ["Resort Hotel"] ["July"]).map
            Row.is_canceled).count true ∧
      panel1_compute (df_filtered [cancRow, cancRow, baseRow] ["Resort Hotel"] ["July"]) =
        Except.ok (Chart.pieChart
          [("Not Canceled",
              pct ((df_filtered [cancRow, cancRow, baseRow] ["Resort Hotel"] ["July"]).map
                  Row.is_canceled).length
                (((df_filtered [cancRow, cancRow, baseRow] ["Resort Hotel"] ["July"]).map
                    Row.is_canceled).count true)),
           ("Canceled",
              pct ((df_filtered [cancRow, cancRow, baseRow] ["Resort Hotel"] ["July"]).map
                  Row.is_canceled).length
                (((df_filtered [cancRow, cancRow, baseRow] ["Resort Hotel"] ["July"]).map
                    Row.is_canceled).count false))]) :=
  ⟨by decide, by decide,
    c9_theorem [cancRow, cancRow, baseRow] ["Resort Hotel"] ["July"] (by decide) (by decide)⟩

/-- Counterexample for C9 as frozen: a view of a single canceled booking
satisfies "canceled strictly outnumber non-canceled", yet panel 1 raises
instead of rendering any slice, so no slice labeled Not Canceled displays
anything. -/
theorem c9_counterexample :
    ((df_filtered [cancRow] ["Resort Hotel"] ["July"]).map Row.is_canceled).count false <
        ((df_filtered [cancRow] ["Resort Hotel"] ["July"]).map Row.is_canceled).count true ∧
      panel1_compute (df_filtered [cancRow] ["Resort Hotel"] ["July"]) =
        Except.error "label must be of length x" := by
  constructor
  · decide
  · have hv : df_filtered [cancRow] ["Resort Hotel"] ["July"] = [cancRow] := by decide
    rw [hv]
    simp [panel1_compute, ax_pie, cancel_rate, value_counts, unique, uniqueAux, sortDesc,
      insertDesc, pct, cancRow, baseRow, Except.map]
    all_goals norm_num

/-- C10: on every nonempty filtered view whose rows all carry the same
cancellation status, the cancellation rate itself is well defined (a single
category at 100 percent), but the pie call pairs one value with the two
positional labels and raises, so the exception branch runs: the panel logs
its diagnostic and renders only its subheader, no chart. -/
theorem c10_theorem (df : Table) (hs ms : List String) (b : Bool)
    (hne : df_filtered df hs ms ≠ [])
    (hall : ∀ r ∈ df_filtered df hs ms, r.is_canceled = b) :
    cancel_rate (df_filtered df hs ms) = [(b, 100)] ∧
      panel1_compute (df_filtered df hs ms) = Except.error "label must be of length x" ∧
      (runPanel panel1 (df_filtered df hs ms)).rendered = [Event.render panel1.header] ∧
      (runPanel panel1 (df_filtered df hs ms)).logged =
        some (panel1.errLabel ++ ": " ++ "label must be of length x") := by
  have hxs : ∀ x ∈ (df_filtered df hs ms).map Row.is_canceled, x = b := by
    intro x hx
    rcases List.mem_map.1 hx with ⟨r, hr, rfl⟩
    exact hall r hr
  have hxsne : (df_filtered df hs ms).map Row.is_canceled ≠ [] := by
    intro h
    exact hne (List.map_eq_nil_iff.1 h)
  have hlen : ((df_filtered df hs ms).map Row.is_canceled).length ≠ 0 := by
    intro h
    exact hxsne (List.length_eq_zero.1 h)
  have hcount : ((df_filtered df hs ms).map Row.is_canceled).count b =
      ((df_filtered df hs ms).map Row.is_canceled).length :=
    List.count_eq_length.2 (fun x hx => (hxs x hx).symm)
  have hcr : cancel_rate (df_filtered df hs ms) = [(b, 100)] := by
    rw [cancel_rate, value_counts_const _ b hxsne hxs]
    simp only [List.map_cons, List.map_nil]
    rw [hcount, pct_self _ hlen]
  have herr : panel1_compute (df_filtered df hs ms) =
      Except.error "label must be of length x" := by
    rw [panel1_compute, hcr]
    simp only [List.map_cons, List.map_nil]
    rw [ax_pie]
    have hno : (decide ((100 : ℚ) < 0)) = false :=
      decide_eq_false (by norm_num)
    simp only [List.any_cons, List.any_nil, hno, Bool.or_false, Bool.false_eq_true,
      if_false, List.length_cons, List.length_nil]
    rfl
  have herr2 : panel1.compute (df_filtered df hs ms) =
      Except.error "label must be of length x" := herr
  have hrun : runPanel panel1 (df_filtered df hs ms) =
      ⟨[Event.render panel1.header],
        some (panel1.errLabel ++ ": " ++ "label must be of length x")⟩ := by
    unfold runPanel
    rw [herr2]
  exact ⟨hcr, herr, by rw [hrun], by rw [hrun]⟩

/-- Witness for C10: a one-row, all-non-canceled filtered view. -/
theorem c10_witness :
    df_filtered [baseRow] ["Resort Hotel"] ["July"] ≠ [] ∧
      (∀ r ∈ df_filtered [baseRow] ["Resort Hotel"] ["July"], r.is_canceled = false) ∧
      cancel_rate (df_filtered [baseRow] ["Resort Hotel"] ["July"]) = [(false, 100)] :=
  ⟨by decide, by decide,
    (c10_theorem [baseRow] ["Resort Hotel"] ["July"] false (by decide) (by decide)).1⟩

end Claims

end HotelDashboard
